import Mathlib

set_option maxRecDepth 4000

/-!
# Verification of `reverse.c`

A shallow embedding of the line-reversing program `src/reverse.c` and proofs
about it.  The program reads an input file line by line (POSIX `getline`),
reverses each line in place up to (but excluding) its terminating newline,
and prints the buffer to the output file with `fprintf(out, "%s", buf)`.

Bytes are modelled as `Nat` (newline is `10`, the NUL terminator is `0`).
A delivered line is the `List Nat` of bytes `getline` wrote into the buffer,
excluding the NUL terminator it places immediately after them.

The C scan `while (*right != '\n') right++;` walks forward from the start of
the buffer until it sees a newline byte.  When the delivered line contains no
newline (a final line of a file that does not end in a newline), that scan
walks past the delivered bytes into the NUL terminator and whatever lies
beyond it (stale bytes from a previous, longer line, or uninitialized
memory).  From that point on the program's behaviour is not determined by its
input, so the model returns `none` in exactly that case.
-/

namespace ReverseC

/-- The in-buffer scan of `reverse_line` (`while (*right != '\n') right++;`):
the index of the first newline byte among the delivered bytes, or `none` when
there is no newline and the scan would leave the delivered bytes. -/
def scanNL : List Nat → Option Nat
  | [] => none
  | b :: rest => if b = 10 then some 0 else (scanNL rest).map (· + 1)

/-- The two-pointer swap loop of `reverse_line`
(`while (left < right) { tmp = *left; *left = *right; *right = tmp; left++; right--; }`),
with the two pointers modelled as indices into the buffer. -/
def revRange (buf : List Nat) (left right : Nat) : List Nat :=
  if h : left < right then
    revRange ((buf.set left (buf.getD right 0)).set right (buf.getD left 0))
      (left + 1) (right - 1)
  else buf
termination_by right - left
decreasing_by omega

/-- `reverse_line`: scan from the start of the buffer for the first newline
byte, step one position back, then swap inward from both ends.  When the line
has no newline the scan leaves the delivered bytes and the result is not
determined by the input (`none`).  When the newline is the very first byte the
C code sets `right` to index `-1` and the swap loop does not run; truncated
subtraction gives `right = 0` here, and the loop does not run either, so the
two agree. -/
def reverse_line (buf : List Nat) : Option (List Nat) :=
  match scanNL buf with
  | none => none
  | some idx => some (revRange buf 0 (idx - 1))

/-- `output_line`: `fprintf(output_file, "%s", input_line_buffer)` writes the
buffer bytes up to (and excluding) the first NUL byte.  The delivered line is
followed in the buffer by the NUL terminator `getline` placed after it, so on
a NUL-free line this writes exactly the delivered bytes. -/
def output_line (buf : List Nat) : List Nat :=
  buf.takeWhile (· ≠ 0)

/-- One iteration of the main loop applied to one delivered line:
`reverse_line(); output_line();` — the bytes this iteration appends to the
output file, or `none` when the reversal scan left the delivered bytes. -/
def processLine (line : List Nat) : Option (List Nat) :=
  (reverse_line line).map output_line

/-- How the input stream ends: at end of file, or with a read error.
POSIX `getline` returns `-1` in both cases, which is the only signal
`get_next_line` passes on to `main`. -/
inductive StreamEnd where
  | eof
  | readError
deriving DecidableEq, Repr

/-- `getline`-style splitting of a file's bytes into delivered lines: each
line runs up to and including its newline; a final run of bytes with no
newline is delivered as-is, without a newline being synthesized. -/
def splitLines : List Nat → List (List Nat)
  | [] => []
  | b :: rest =>
    if b = 10 then [10] :: splitLines rest
    else
      match splitLines rest with
      | [] => [[b]]
      | l :: ls => (b :: l) :: ls

/-- The `while (get_next_line() != END_OF_INPUT)` loop of `main`, run over the
lines the input stream delivers.  `getline` returns `-1` both at end of file
and on a read error, so the way the stream ends (`ek`) is invisible to the
loop: it terminates normally in both cases.  The result is the per-iteration
output (what `output_line` appended, in order), or `none` when some
iteration's reversal scan left the delivered bytes. -/
def mainLoop (ek : StreamEnd) : List (List Nat) → Option (List (List Nat))
  | [] => some []
  | l :: ls =>
    match processLine l with
    | none => none
    | some o => (mainLoop ek ls).map (o :: ·)

/-- The usage message `print_usage` writes to `stderr`. -/
def print_usage (prog : String) : String :=
  "Usage: " ++ prog ++ " [in-file] [out-file]\n"

/-- The message `open` writes to `stderr` when `fopen` fails. -/
def open_error_message (path : String) : String :=
  "Error opening file: " ++ path ++ "\n"

/-- The observable outcome of one run of the program. -/
structure RunResult where
  /-- The process exit status. -/
  exitCode : Nat
  /-- The messages written to `stderr`, in order. -/
  errMessages : List String
  /-- Whether the input file was opened. -/
  inputOpened : Bool
  /-- Whether the output file was opened (`fopen` with mode `"w"` creates or
  truncates the file, so this is also whether the output file was touched). -/
  outputOpened : Bool
  /-- Whether the input stream was closed again before exit. -/
  inputClosed : Bool
  /-- Whether the output stream was closed again before exit. -/
  outputClosed : Bool
  /-- The lines written to the output file (`none` on the error paths that
  exit before the loop runs). -/
  written : Option (List (List Nat))
deriving DecidableEq, Repr

/-- The environment a run sees: the positional arguments `argv[1..]`, the
bytes of the input file (`none` when the input path cannot be opened for
reading), whether the output path can be opened for writing, and how the
input stream ends. -/
structure Env where
  /-- `argv[1..]`; `argv[0]` is the program name, passed separately. -/
  args : List String
  /-- `none` models `fopen(argv[1], "r")` failing. -/
  inputBytes : Option (List Nat)
  /-- Whether `fopen(argv[2], "w")` succeeds. -/
  outputOpenOk : Bool
  /-- Whether the input stream ends at end of file or with a read error. -/
  endKind : StreamEnd
deriving DecidableEq, Repr

/-- `main`: check `argc == 3`; open the input file, then the output file,
exiting via `cleanup(); exit(1);` on failure; run the loop; then
`cleanup(); exit(0);`.  `cleanup` closes whichever streams are open.  The
result is `none` when the loop hits the undefined scan-overrun behaviour,
in which case the run's outcome is not determined by the input. -/
def runMain (prog : String) (env : Env) : Option RunResult :=
  if env.args.length ≠ 2 then
    some { exitCode := 1, errMessages := [print_usage prog],
           inputOpened := false, outputOpened := false,
           inputClosed := false, outputClosed := false, written := none }
  else
    match env.inputBytes with
    | none =>
      some { exitCode := 1, errMessages := [open_error_message (env.args.getD 0 "")],
             inputOpened := false, outputOpened := false,
             inputClosed := false, outputClosed := false, written := none }
    | some bytes =>
      if env.outputOpenOk = false then
        some { exitCode := 1, errMessages := [open_error_message (env.args.getD 1 "")],
               inputOpened := true, outputOpened := false,
               inputClosed := true, outputClosed := false, written := none }
      else
        match mainLoop env.endKind (splitLines bytes) with
        | none => none
        | some outs =>
          some { exitCode := 0, errMessages := [],
                 inputOpened := true, outputOpened := true,
                 inputClosed := true, outputClosed := true, written := some outs }

/-! ## Facts about the newline scan -/

lemma scanNL_some (buf : List Nat) (idx : Nat) (h : scanNL buf = some idx) :
    idx < buf.length ∧ buf.getD idx 0 = 10 ∧ ∀ j, j < idx → buf.getD j 0 ≠ 10 := by
  induction buf generalizing idx with
  | nil => simp [scanNL] at h
  | cons b rest ih =>
    rw [scanNL] at h
    by_cases hb : b = 10
    · rw [if_pos hb] at h
      cases h
      subst hb
      exact ⟨by simp, by simp, by omega⟩
    · rw [if_neg hb] at h
      rcases Option.map_eq_some'.mp h with ⟨idx0, hidx0, rfl⟩
      obtain ⟨h1, h2, h3⟩ := ih idx0 hidx0
      refine ⟨by simp; omega, by simpa using h2, ?_⟩
      intro j hj
      cases j with
      | zero => simpa using hb
      | succ j0 => simpa using h3 j0 (by omega)

lemma scanNL_mem (buf : List Nat) (h : (10 : Nat) ∈ buf) :
    ∃ idx, scanNL buf = some idx := by
  induction buf with
  | nil => simp at h
  | cons b rest ih =>
    rw [scanNL]
    by_cases hb : b = 10
    · exact ⟨0, by rw [if_pos hb]⟩
    · have hmem : (10 : Nat) ∈ rest := by
        rcases List.mem_cons.mp h with h10 | h10
        · exact absurd h10.symm hb
        · exact h10
      obtain ⟨idx0, hidx0⟩ := ih hmem
      exact ⟨idx0 + 1, by rw [if_neg hb, hidx0]; rfl⟩

lemma scanNL_append_of_no_newline (c : List Nat) (h : (10 : Nat) ∉ c) :
    scanNL (c ++ [10]) = some c.length := by
  induction c with
  | nil => simp [scanNL]
  | cons b rest ih =>
    have hb : b ≠ 10 := fun hb => h (by simp [hb])
    have hrest : (10 : Nat) ∉ rest := fun hm => h (by simp [hm])
    rw [List.cons_append, scanNL, if_neg hb, ih hrest]
    rfl

/-! ## Characterization of the two-pointer swap loop -/

lemma getD_set_self (l : List Nat) (x : Nat) {i : Nat} (h : i < l.length) :
    (l.set i x).getD i 0 = x := by
  rw [List.getD_eq_getElem?_getD, List.getElem?_set_self h]
  rfl

lemma getD_set_ne (l : List Nat) (x : Nat) {i j : Nat} (h : i ≠ j) :
    (l.set i x).getD j 0 = l.getD j 0 := by
  rw [List.getD_eq_getElem?_getD, List.getElem?_set_ne h, ← List.getD_eq_getElem?_getD]

lemma length_revRange (buf : List Nat) (a b : Nat) :
    (revRange buf a b).length = buf.length := by
  induction buf, a, b using revRange.induct with
  | case1 buf a b h ih =>
    rw [revRange, dif_pos h]
    rw [ih]
    simp
  | case2 buf a b h =>
    rw [revRange, dif_neg h]

/-- Pointwise description of the swap loop: positions inside `[a, b]` are
mirrored around the midpoint of the segment, positions outside it are
untouched. -/
lemma getD_revRange (buf : List Nat) (a b : Nat) (i : Nat) :
    b < buf.length →
    (revRange buf a b).getD i 0 =
      if a ≤ i ∧ i ≤ b then buf.getD (a + b - i) 0 else buf.getD i 0 := by
  induction buf, a, b using revRange.induct generalizing i with
  | case1 buf a b h ih =>
    intro hb
    have hset : ((buf.set a (buf.getD b 0)).set b (buf.getD a 0)).length = buf.length := by
      simp
    rw [revRange, dif_pos h, ih i (by omega)]
    by_cases hia : i = a
    · subst hia
      rw [if_neg (by omega), if_pos ⟨Nat.le_refl i, by omega⟩]
      rw [getD_set_ne _ _ (by omega : b ≠ i), getD_set_self _ _ (by omega : i < buf.length)]
      have harith : i + b - i = b := by omega
      rw [harith]
    · by_cases hib : i = b
      · subst hib
        rw [if_neg (by omega), if_pos ⟨by omega, Nat.le_refl i⟩]
        rw [getD_set_self _ _ (by simp; omega : i < (buf.set a (buf.getD i 0)).length)]
        have harith : a + i - i = a := by omega
        rw [harith]
      · by_cases hmid : a + 1 ≤ i ∧ i ≤ b - 1
        · rw [if_pos hmid, if_pos (by omega)]
          have harith : a + 1 + (b - 1) - i = a + b - i := by omega
          rw [harith]
          rw [getD_set_ne _ _ (by omega : b ≠ a + b - i),
              getD_set_ne _ _ (by omega : a ≠ a + b - i)]
        · rw [if_neg hmid, if_neg (by omega)]
          rw [getD_set_ne _ _ (by omega : b ≠ i), getD_set_ne _ _ (by omega : a ≠ i)]
  | case2 buf a b h =>
    intro _
    rw [revRange, dif_neg h]
    by_cases hc : a ≤ i ∧ i ≤ b
    · rw [if_pos hc]
      have harith : a + b - i = i := by omega
      rw [harith]
    · rw [if_neg hc]

lemma ext_of_getD (l1 l2 : List Nat) (hlen : l1.length = l2.length)
    (h : ∀ i, l1.getD i 0 = l2.getD i 0) : l1 = l2 := by
  apply List.ext_getElem hlen
  intro i h1 h2
  have hi := h i
  rw [List.getD_eq_getElem?_getD, List.getD_eq_getElem?_getD,
      List.getElem?_eq_getElem h1, List.getElem?_eq_getElem h2] at hi
  simpa using hi

/-- Pointwise description of "reverse the prefix of length `idx`, keep the
rest": the shape the swap loop's result is compared against. -/
lemma getD_rev_take_drop (buf : List Nat) (idx : Nat) (hidx : idx < buf.length) (i : Nat) :
    ((buf.take idx).reverse ++ buf.drop idx).getD i 0 =
      if i < idx then buf.getD (idx - 1 - i) 0 else buf.getD i 0 := by
  have hmin : min idx buf.length = idx := Nat.min_eq_left hidx.le
  have hlen1 : ((buf.take idx).reverse).length = idx := by
    simp [List.length_take, hmin]
  by_cases hi : i < idx
  · rw [if_pos hi, List.getD_eq_getElem?_getD,
        List.getElem?_append_left (by omega : i < ((buf.take idx).reverse).length),
        List.getElem?_eq_getElem (by omega : i < ((buf.take idx).reverse).length)]
    rw [List.getElem_reverse]
    rw [List.getElem_take]
    rw [List.getD_eq_getElem?_getD,
        List.getElem?_eq_getElem (by omega : idx - 1 - i < buf.length)]
    simp only [Option.getD_some]
    congr 1
    simp [List.length_take, hmin]
  · rw [if_neg hi, List.getD_eq_getElem?_getD,
        List.getElem?_append_right (by omega : ((buf.take idx).reverse).length ≤ i),
        hlen1]
    by_cases hl : i < buf.length
    · rw [List.getElem?_eq_getElem (by simp [List.length_drop]; omega : i - idx < (buf.drop idx).length)]
      rw [List.getElem_drop]
      rw [List.getD_eq_getElem?_getD, List.getElem?_eq_getElem hl]
      simp only [Option.getD_some]
      congr 1
      omega
    · rw [List.getElem?_eq_none (by simp [List.length_drop]; omega),
          List.getD_eq_getElem?_getD, List.getElem?_eq_none (by omega)]

/-- The net effect of `reverse_line`'s swap loop starting at `left = 0`,
`right = idx - 1` (the position just before the first newline): the prefix of
length `idx` is reversed and everything from `idx` on is untouched. -/
lemma revRange_zero_eq (buf : List Nat) (idx : Nat) (hidx : idx < buf.length) :
    revRange buf 0 (idx - 1) = (buf.take idx).reverse ++ buf.drop idx := by
  apply ext_of_getD
  · rw [length_revRange]
    have hmin : min idx buf.length = idx := Nat.min_eq_left hidx.le
    simp [List.length_take, List.length_drop, hmin]
    omega
  · intro i
    rw [getD_revRange buf 0 (idx - 1) i (by omega)]
    rw [getD_rev_take_drop buf idx hidx i]
    rcases Nat.eq_zero_or_pos idx with hz | hp
    · subst hz
      by_cases hc : 0 ≤ i ∧ i ≤ 0
      · rw [if_pos hc, if_neg (by omega)]
        have harith : 0 + (0 - 1) - i = i := by omega
        rw [harith]
      · rw [if_neg hc, if_neg (by omega)]
    · by_cases hc : i < idx
      · rw [if_pos (⟨by omega, by omega⟩ : 0 ≤ i ∧ i ≤ idx - 1), if_pos hc]
        have harith : 0 + (idx - 1) - i = idx - 1 - i := by omega
        rw [harith]
      · rw [if_neg (by omega), if_neg hc]

/-- `reverse_line` on a buffer whose first newline is at index `idx`:
the prefix before the newline is reversed in place, the newline and all
bytes after it stay put. -/
lemma reverse_line_eq_of_scan (buf : List Nat) (idx : Nat) (h : scanNL buf = some idx) :
    reverse_line buf = some ((buf.take idx).reverse ++ buf.drop idx) := by
  have hidx := (scanNL_some buf idx h).1
  rw [reverse_line, h]
  exact congrArg some (revRange_zero_eq buf idx hidx)

/-! ## Corroboration of the model on the spec's scenarios -/

/-- Scenario 1 of the spec: input `"hello\nworld\n"` gives output
`"olleh\ndlrow\n"`, exit status 0, all resources released. -/
lemma scenario_hello_world :
    runMain "reverse"
      { args := ["in.txt", "out.txt"],
        inputBytes := some [104, 101, 108, 108, 111, 10, 119, 111, 114, 108, 100, 10],
        outputOpenOk := true, endKind := StreamEnd.eof } =
      some { exitCode := 0, errMessages := [],
             inputOpened := true, outputOpened := true,
             inputClosed := true, outputClosed := true,
             written := some [[111, 108, 108, 101, 104, 10],
                              [100, 108, 114, 111, 119, 10]] } := by
  simp [runMain, mainLoop, splitLines, processLine, reverse_line, output_line, scanNL, revRange]

/-- Scenario 2 of the spec: input `"a\n\nbc\n"` (middle line empty) gives
output `"a\n\ncb\n"`. -/
lemma scenario_middle_empty_line :
    mainLoop StreamEnd.eof (splitLines [97, 10, 10, 98, 99, 10]) =
      some [[97, 10], [10], [99, 98, 10]] := by
  simp [runMain, mainLoop, splitLines, processLine, reverse_line, output_line, scanNL, revRange]

/-- Scenario 4 of the spec: empty input file gives empty output and exit
status 0. -/
lemma scenario_empty_input :
    runMain "reverse"
      { args := ["in.txt", "out.txt"], inputBytes := some [],
        outputOpenOk := true, endKind := StreamEnd.eof } =
      some { exitCode := 0, errMessages := [],
             inputOpened := true, outputOpened := true,
             inputClosed := true, outputClosed := true,
             written := some [] } := by
  simp [runMain, mainLoop, splitLines, processLine, reverse_line, output_line, scanNL, revRange]

/-! ## The claims -/

/-- C1: the claim says that for every input file the program writes exactly
one output line per input line, in order, each the reversal of its input
line.  The code violates this: on the input file `"noeol"` (bytes
`[110, 111, 101, 111, 108]`, final line with no trailing newline) the
newline scan of `reverse_line` leaves the delivered bytes — it walks into
the NUL terminator and whatever lies beyond it — so the run's outcome is not
determined by the input at all (modelled as `none`), and in particular is
not the claimed per-line reversal. -/
theorem run_on_noeol_file_undetermined :
    runMain "reverse"
      { args := ["in.txt", "out.txt"],
        inputBytes := some [110, 111, 101, 111, 108],
        outputOpenOk := true, endKind := StreamEnd.eof } = none := by
  simp [runMain, mainLoop, splitLines, processLine, reverse_line, output_line, scanNL, revRange]

/-- C2: the claim says `reverse (reverse L) = L` for every line `L`.  The
code violates this for the line `"noeol"` (no trailing newline): its newline
scan leaves the delivered bytes, so even a single application of `reverse`
has no outcome determined by the line, and the double application does not
return `L`. -/
theorem double_reverse_undetermined_on_noeol :
    (reverse_line [110, 111, 101, 111, 108]).bind reverse_line = none ∧
    (reverse_line [110, 111, 101, 111, 108]).bind reverse_line ≠
      some [110, 111, 101, 111, 108] := by
  have h1 : (reverse_line [110, 111, 101, 111, 108]).bind reverse_line = none := rfl
  exact ⟨h1, by rw [h1]; simp⟩

/-- C3: the claim says input `"noeol"` (no trailing newline) produces output
exactly `"loeon"`.  The code violates this: the loop iteration for that line
has no outcome determined by the line (the newline scan leaves the delivered
bytes), and in particular does not write `"loeon"`
(bytes `[108, 111, 101, 111, 110]`). -/
theorem noeol_line_not_reversed :
    processLine [110, 111, 101, 111, 108] = none ∧
    processLine [110, 111, 101, 111, 108] ≠ some [108, 111, 101, 111, 110] := by
  have h1 : processLine [110, 111, 101, 111, 108] = none := rfl
  exact ⟨h1, by rw [h1]; simp⟩

/-- C4: the claim says every line-boundary scan stays within the delivered
bytes of the line.  The code violates this: the delivered line
`[110, 111, 101, 111, 108]` (`"noeol"`) contains no newline byte, so the
scan `while (*right != '\n') right++;` finds no newline within the delivered
bytes (`scanNL` returns `none`) and must inspect positions beyond the
delivered length to terminate. -/
theorem scan_leaves_delivered_bytes_on_noeol :
    (10 : Nat) ∉ [110, 111, 101, 111, 108] ∧
    scanNL [110, 111, 101, 111, 108] = none ∧
    reverse_line [110, 111, 101, 111, 108] = none := by
  exact ⟨by decide, rfl, rfl⟩

/-- C5 (counterexample): the claim says reversal is a no-op also for an
empty line with no newline.  On an empty buffer the newline scan finds no
newline among the delivered (zero) bytes and leaves them, so the reversal is
not the claimed no-op. -/
theorem empty_noeol_line_not_noop :
    reverse_line [] ≠ some [] ∧ reverse_line [] = none := by
  exact ⟨by simp [reverse_line, scanNL], rfl⟩

/-- C5 (amended): for a line that is just a newline, reverse is a no-op and
the line is written unchanged. -/
theorem newline_only_line_unchanged :
    reverse_line [10] = some [10] ∧ processLine [10] = some [10] := by
  constructor
  · simp [reverse_line, scanNL, revRange]
  · simp [processLine, reverse_line, scanNL, revRange, output_line]

/-- C6 (counterexample): the claim says `writeLine` appends exactly the byte
sequence produced by `reverse`, dropping no byte.  The code violates this on
a line with an embedded NUL byte: for the delivered line
`[97, 0, 98, 10]` the reversal produces `[98, 0, 97, 10]`, but
`fprintf(out, "%s", buf)` stops at the first NUL and writes only `[98]`. -/
theorem write_drops_bytes_after_nul :
    reverse_line [97, 0, 98, 10] = some [98, 0, 97, 10] ∧
    output_line [98, 0, 97, 10] = [98] ∧
    processLine [97, 0, 98, 10] = some [98] ∧
    [98] ≠ ([98, 0, 97, 10] : List Nat) := by
  refine ⟨?_, rfl, ?_, by simp⟩
  · simp [reverse_line, scanNL, revRange]
  · simp [processLine, reverse_line, scanNL, revRange, output_line]

/-- C6 (amended): for every reversed line containing no NUL byte,
`output_line` appends exactly that byte sequence — no byte dropped, added or
altered. -/
theorem write_exact_of_no_nul (buf : List Nat) (h : (0 : Nat) ∉ buf) :
    output_line buf = buf := by
  rw [output_line]
  rw [List.takeWhile_eq_self_iff.mpr]
  intro x hx
  simp only [ne_eq, decide_eq_true_eq]
  exact fun h0 => h (h0 ▸ hx)

/-- Witness for C6 (amended) at the concrete line `[98, 97, 10]`. -/
theorem write_exact_of_no_nul_witness :
    output_line [98, 97, 10] = [98, 97, 10] :=
  write_exact_of_no_nul [98, 97, 10] (by decide)

/-- C7: with any argument count other than exactly two positional arguments
(`argc != 3`), the program writes the usage message to `stderr` and exits
with status 1 (non-zero); neither the input nor the output file is opened,
created or modified. -/
theorem usage_error_no_files_touched (prog : String) (env : Env)
    (h : env.args.length ≠ 2) :
    runMain prog env =
      some { exitCode := 1, errMessages := [print_usage prog],
             inputOpened := false, outputOpened := false,
             inputClosed := false, outputClosed := false, written := none } := by
  rw [runMain, if_pos h]

/-- Witness for C7 at a concrete one-argument invocation. -/
theorem usage_error_no_files_touched_witness :
    runMain "reverse"
      { args := ["only-one-arg"], inputBytes := some [104, 10],
        outputOpenOk := true, endKind := StreamEnd.eof } =
      some { exitCode := 1, errMessages := [print_usage "reverse"],
             inputOpened := false, outputOpened := false,
             inputClosed := false, outputClosed := false, written := none } :=
  usage_error_no_files_touched "reverse" _ (by decide)

/-- C8: if the input path cannot be opened, the program reports that path on
`stderr` and exits with status 1 without having opened (hence without having
created or truncated) the output file; if the input path opens but the
output path cannot be opened, the program reports the output path on
`stderr`, closes the already-opened input stream, and exits with status 1. -/
theorem open_failure_reports_path_and_cleans_up (prog : String) (env : Env)
    (hargs : env.args.length = 2) :
    (env.inputBytes = none →
      runMain prog env =
        some { exitCode := 1,
               errMessages := [open_error_message (env.args.getD 0 "")],
               inputOpened := false, outputOpened := false,
               inputClosed := false, outputClosed := false, written := none }) ∧
    (∀ bytes, env.inputBytes = some bytes → env.outputOpenOk = false →
      runMain prog env =
        some { exitCode := 1,
               errMessages := [open_error_message (env.args.getD 1 "")],
               inputOpened := true, outputOpened := false,
               inputClosed := true, outputClosed := false, written := none }) := by
  constructor
  · intro hin
    rw [runMain, if_neg (by omega), hin]
  · intro bytes hin hout
    rw [runMain, if_neg (by omega), hin]
    simp only [if_pos hout]

/-- Witness for C8 at a concrete run whose input path does not open. -/
theorem open_failure_reports_path_and_cleans_up_witness :
    runMain "reverse"
      { args := ["missing.txt", "out.txt"], inputBytes := none,
        outputOpenOk := true, endKind := StreamEnd.eof } =
      some { exitCode := 1, errMessages := [open_error_message "missing.txt"],
             inputOpened := false, outputOpened := false,
             inputClosed := false, outputClosed := false, written := none } :=
  (open_failure_reports_path_and_cleans_up "reverse" _ (by decide)).1 rfl

/-- C9 (counterexample): the claim says a read failure once the loop has
started makes the run exit with a non-zero status.  The code violates this:
`getline` returns `-1` both at end of file and on a read error, and `main`
treats every `-1` as `END_OF_INPUT`, so a run whose input stream fails with
a read error after delivering `"hi\n"` terminates the loop normally and
exits with status 0. -/
theorem read_error_exits_zero :
    runMain "reverse"
      { args := ["in.txt", "out.txt"], inputBytes := some [104, 105, 10],
        outputOpenOk := true, endKind := StreamEnd.readError } =
      some { exitCode := 0, errMessages := [],
             inputOpened := true, outputOpened := true,
             inputClosed := true, outputClosed := true,
             written := some [[105, 104, 10]] } := by
  simp [runMain, mainLoop, splitLines, processLine, reverse_line, output_line, scanNL, revRange]

/-- C9 (amended): a read failure once the loop has started is
indistinguishable from end of input (`getline` returns `-1` for both), so
the loop terminates normally, all resources are released, and the process
exits with status 0 — not non-zero; write failures are never checked and do
not change control flow. -/
theorem read_error_treated_as_eof (prog : String) (env : Env)
    (hargs : env.args.length = 2) (bytes : List Nat)
    (hin : env.inputBytes = some bytes) (hout : env.outputOpenOk = true)
    (_hend : env.endKind = StreamEnd.readError) (outs : List (List Nat))
    (hloop : mainLoop env.endKind (splitLines bytes) = some outs) :
    runMain prog env =
      some { exitCode := 0, errMessages := [],
             inputOpened := true, outputOpened := true,
             inputClosed := true, outputClosed := true,
             written := some outs } := by
  rw [runMain, if_neg (by omega), hin]
  simp only [if_neg (by simp [hout] : ¬env.outputOpenOk = false)]
  rw [hloop]

/-- Witness for C9 (amended) at a concrete run ending in a read error. -/
theorem read_error_treated_as_eof_witness :
    runMain "reverse"
      { args := ["in.txt", "out.txt"], inputBytes := some [104, 105, 10],
        outputOpenOk := true, endKind := StreamEnd.readError } =
      some { exitCode := 0, errMessages := [],
             inputOpened := true, outputOpened := true,
             inputClosed := true, outputClosed := true,
             written := some [[105, 104, 10]] } :=
  read_error_treated_as_eof "reverse" _ (by decide) [104, 105, 10] rfl rfl rfl
    [[105, 104, 10]]
    (by simp [mainLoop, splitLines, processLine, reverse_line, output_line, scanNL, revRange])

/-- C10: for every line containing a newline byte, `reverse_line` reverses
exactly the bytes strictly before the first newline (a permutation of that
prefix) and leaves the first newline and every byte at or after it
unchanged. -/
theorem reverse_line_frame (buf : List Nat) (h : (10 : Nat) ∈ buf) :
    ∃ idx, scanNL buf = some idx ∧
      buf.getD idx 0 = 10 ∧
      (∀ j, j < idx → buf.getD j 0 ≠ 10) ∧
      reverse_line buf = some ((buf.take idx).reverse ++ buf.drop idx) ∧
      ((buf.take idx).reverse).Perm (buf.take idx) ∧
      ((buf.take idx).reverse ++ buf.drop idx).drop idx = buf.drop idx := by
  obtain ⟨idx, hscan⟩ := scanNL_mem buf h
  obtain ⟨hlt, hnl, hmin⟩ := scanNL_some buf idx hscan
  have hlen : ((buf.take idx).reverse).length = idx := by
    simp [List.length_take]
    omega
  exact ⟨idx, hscan, hnl, hmin, reverse_line_eq_of_scan buf idx hscan,
    List.reverse_perm _, List.drop_left' hlen⟩

/-- Witness for C10 at the concrete line `[97, 98, 10, 99]`. -/
theorem reverse_line_frame_witness :
    (10 : Nat) ∈ [97, 98, 10, 99] ∧
    ∃ idx, scanNL [97, 98, 10, 99] = some idx ∧
      ([97, 98, 10, 99] : List Nat).getD idx 0 = 10 ∧
      (∀ j, j < idx → ([97, 98, 10, 99] : List Nat).getD j 0 ≠ 10) ∧
      reverse_line [97, 98, 10, 99] =
        some ((([97, 98, 10, 99] : List Nat).take idx).reverse ++
          ([97, 98, 10, 99] : List Nat).drop idx) ∧
      ((([97, 98, 10, 99] : List Nat).take idx).reverse).Perm
        (([97, 98, 10, 99] : List Nat).take idx) ∧
      ((([97, 98, 10, 99] : List Nat).take idx).reverse ++
          ([97, 98, 10, 99] : List Nat).drop idx).drop idx =
        ([97, 98, 10, 99] : List Nat).drop idx :=
  ⟨by decide, reverse_line_frame [97, 98, 10, 99] (by decide)⟩

end ReverseC
